import Mathlib

/-!
Verification of the `os-bot` issue-analysis pipeline (`src/os-bot.ts`).

The development shallowly embeds the `OsBot` class: JavaScript strings are
Lean `String` (a wrapper around `List Char`; JS code-unit indexing and Lean
character indexing agree on the texts involved), the nullable `body` field is
`Option String`, thrown exceptions are `Except` values, and the two remote
services (issue tracker, generative-language API) are modelled by an
environment record holding the outcome of each remote call.  The ambient
locale/timezone read by `Date.prototype.toLocaleString` is modelled as an
explicit rendering function `String → String` carried in the environment.
-/

set_option maxRecDepth 8000

namespace OsBot

/-! ## Character-list primitives

JS string primitives (`startsWith`, `includes`, `trim`, `split("\n")`) are
modelled as executable functions on `List Char`, the underlying data of a
Lean `String`. -/

/-- Does the list `s` start with the pattern `p`?  Models
`String.prototype.startsWith`. -/
def startsWithChars : List Char → List Char → Bool
  | _, [] => true
  | [], _ :: _ => false
  | c :: cs, p :: ps => c == p && startsWithChars cs ps

/-- Does the pattern `p` occur as a contiguous run inside `s`?  Models
`String.prototype.includes`. -/
def containsSub : List Char → List Char → Bool
  | [], p => p.isEmpty
  | s@(_ :: rest), p => startsWithChars s p || containsSub rest p

/-- Remove leading and trailing whitespace.  Models `String.prototype.trim`. -/
def trimChars (l : List Char) : List Char :=
  ((l.dropWhile Char.isWhitespace).reverse.dropWhile Char.isWhitespace).reverse

/-- Split a character list at every newline character.  Models
`String.prototype.split("\n")`: an empty input yields one empty field. -/
def splitNlChars : List Char → List (List Char)
  | [] => [[]]
  | c :: rest =>
    if c == '\n' then [] :: splitNlChars rest
    else
      match splitNlChars rest with
      | [] => [[c]]
      | r :: rs => (c :: r) :: rs

/-- String versions of the primitives above. -/
def strIncludes (s pat : String) : Bool := containsSub s.data pat.data

def strTrim (s : String) : String := ⟨trimChars s.data⟩

def splitLines (s : String) : List String := (splitNlChars s.data).map String.mk

/-- The first `n` characters of `s`.  Models `String.prototype.substring(0, n)`. -/
def strTake (s : String) (n : Nat) : String := ⟨s.data.take n⟩

/-! ## Data model (§3 of the spec, `interface Issue`) -/

/-- A label object of the tracker response (`{ name: string }`). -/
structure Label where
  name : String
deriving DecidableEq, Repr

/-- The issue record fetched from the tracker (`interface Issue`).  `body` is
`Option String` because the tracker may return `null`; a `null` labels array
is modelled as the empty list (the source treats the two identically).  The
`user` field holds the author login (`user.login`). -/
structure Issue where
  title : String
  number : Nat
  body : Option String
  labels : List Label
  user : String
  created_at : String
deriving Repr

/-- JS truthiness of the nullable `body` field: `null`/`undefined` and the
empty string are falsy. -/
def bodyTruthy : Option String → Bool
  | none => false
  | some s => !(s == "")

/-! ## TextAnalyzer -/

/-- The fence marker of a code block (three backticks). -/
def fenceMarker : String := "```"

/-- The test `line.startsWith("```")` of `extractCodeBlock`. -/
def isFence (line : String) : Bool := startsWithChars line.data fenceMarker.data

/-- The `forEach` loop of `extractCodeBlock`: state is the `inCodeBlock` flag
and the accumulated `currentBlock`; on a closing fence the trimmed block is
pushed onto `codeBlocks`. -/
def extractCodeBlockGo : List String → Bool → String → List String → List String
  | [], _, _, codeBlocks => codeBlocks
  | line :: rest, inCodeBlock, currentBlock, codeBlocks =>
    if isFence line then
      if inCodeBlock then
        extractCodeBlockGo rest false "" (codeBlocks ++ [strTrim currentBlock])
      else
        extractCodeBlockGo rest true currentBlock codeBlocks
    else if inCodeBlock then
      extractCodeBlockGo rest inCodeBlock (currentBlock ++ line ++ "\n") codeBlocks
    else
      extractCodeBlockGo rest inCodeBlock currentBlock codeBlocks

/-- `OsBot.extractCodeBlock` (src/os-bot.ts:166-184). -/
def extractCodeBlock (bodyLines : List String) : List String :=
  extractCodeBlockGo bodyLines false "" []

/-- A word character of the regex class `\w`: ASCII letter, digit or
underscore. -/
def isWordChar (c : Char) : Bool :=
  ('a' ≤ c && c ≤ 'z') || ('A' ≤ c && c ≤ 'Z') || ('0' ≤ c && c ≤ '9') || c == '_'

/-- Scanner state for the global regex `/@(\w+)/g`: outside any candidate
match, just after an `@`, or collecting the word characters of a match
(buffer reversed). -/
inductive MSt where
  | idle
  | armed
  | coll (buf : List Char)

/-- One-pass left-to-right scanner implementing `body.matchAll(/@(\w+)/g)`:
an `@` arms the scanner, a following run of one-or-more word characters is a
match (maximal because collection continues while word characters last), and
a bare `@` with no following word character matches nothing. -/
def mGo : List Char → MSt → List (List Char)
  | [], .coll buf => [buf.reverse]
  | [], _ => []
  | c :: rest, .idle => mGo rest (if c == '@' then .armed else .idle)
  | c :: rest, .armed =>
    if isWordChar c then mGo rest (.coll [c])
    else mGo rest (if c == '@' then .armed else .idle)
  | c :: rest, .coll buf =>
    if isWordChar c then mGo rest (.coll (c :: buf))
    else buf.reverse :: mGo rest (if c == '@' then .armed else .idle)

/-- `OsBot.extractMentions` (src/os-bot.ts:186-189): all captures of the
global regex `/@(\w+)/g`, in order of occurrence. -/
def extractMentions (body : String) : List String :=
  (mGo body.data .idle).map String.mk

/-- `OsBot.summarizeBody` (src/os-bot.ts:159-164). -/
def summarizeBody (bodyLines : List String) : String :=
  if bodyLines.isEmpty then "No description available."
  else strTake (String.intercalate "\n" (bodyLines.take 5)) 200 ++ "..."

/-! ## LanguageDetector -/

/-- The hand-authored hint table of `detectCodeLanguages`, in the object-key
insertion order iterated by `Object.entries`. -/
def languageHints : List (String × List String) :=
  [("javascript", ["const", "let", "var", "function"]),
   ("python", ["def", "import", "class", "if __name__"]),
   ("java", ["public class", "private", "protected", "import java"]),
   ("typescript", ["interface", "type", "enum", "namespace"])]

/-- The inner `for`-loop of `detectCodeLanguages`: the first language of the
table one of whose hints occurs in the block (the `break` stops the scan at
the first match); `none` when no hint of any language occurs. -/
def findLang : List (String × List String) → String → Option String
  | [], _ => none
  | (lang, hints) :: rest, block =>
    if hints.any (fun hint => strIncludes block hint) then some lang
    else findLang rest block

/-- The `forEach` loop of `detectCodeLanguages` over the blocks, with the
insertion-ordered deduplicating `Set` as accumulator. -/
def detectGo : List String → List String → List String
  | [], languages => languages
  | block :: rest, languages =>
    match findLang languageHints block with
    | some lang =>
      detectGo rest (if lang ∈ languages then languages else languages ++ [lang])
    | none => detectGo rest languages

/-- `OsBot.detectCodeLanguages` (src/os-bot.ts:191-210). -/
def detectCodeLanguages (codeBlocks : List String) : List String :=
  detectGo codeBlocks []

/-! ## SuggestionEngine -/

/-- The advisory appended when the issue has no (truthy) body. -/
def noDescLine : String :=
  "- The issue has no description. Consider adding details about the problem or feature request.\n"

/-- The advisory appended when the body is shorter than 50 characters. -/
def shortDescLine : String :=
  "- The issue description is quite short. Consider adding more details.\n"

/-- The advisory appended when no code blocks are extractable. -/
def noCodeLine : String :=
  "- No code blocks found. If applicable, consider adding relevant code snippets.\n"

/-- The advisory appended when the issue has no labels. -/
def noLabelsLine : String :=
  "- No labels applied. Adding appropriate labels can help categorize the issue.\n"

/-- `OsBot.provideSuggestions` (src/os-bot.ts:212-234). -/
def provideSuggestions (issue : Issue) : String :=
  let s1 := "Suggestions:\n"
  let s2 :=
    if !(bodyTruthy issue.body) then s1 ++ noDescLine
    else if (issue.body.getD "").length < 50 then s1 ++ shortDescLine
    else s1
  let s3 :=
    if !(bodyTruthy issue.body)
        || ((extractCodeBlock (splitLines (issue.body.getD ""))).length == 0) then
      s2 ++ noCodeLine
    else s2
  let s4 := if issue.labels.length == 0 then s3 ++ noLabelsLine else s3
  s4

/-! ## ReportAssembler: text rendering -/

/-- `OsBot.generateAnalysis` (src/os-bot.ts:93-140).  `loc` models
`s ↦ new Date(s).toLocaleString()` under the ambient locale and timezone of
the process; the `none` case models the `if (!issue)` null check. -/
def generateAnalysis (loc : String → String) : Option Issue → String
  | none => "Unable to analyze the issue: No issue data available."
  | some issue =>
    let a1 := "Issue #" ++ Nat.repr issue.number ++ ": " ++ issue.title ++ "\n\n"
    let a2 := a1 ++ "Created by: "
      ++ (if issue.user == "" then "Unknown" else issue.user) ++ "\n"
    let a3 := a2 ++ "Created at: " ++ loc issue.created_at ++ "\n\n"
    let a4 :=
      if issue.labels.length > 0 then
        a3 ++ "Labels:\n"
          ++ String.join (issue.labels.map (fun label => "- " ++ label.name ++ "\n"))
          ++ "\n"
      else a3
    let a5 :=
      if bodyTruthy issue.body then
        let bodyLines := splitLines (issue.body.getD "")
        let codeBlocks := extractCodeBlock bodyLines
        let mentions := extractMentions (issue.body.getD "")
        let b1 := a4 ++ "Issue Description:\n" ++ summarizeBody bodyLines ++ "\n\n"
        let b2 :=
          if codeBlocks.length > 0 then
            b1 ++ "Code Blocks Found: " ++ Nat.repr codeBlocks.length ++ "\n"
              ++ "Languages detected: "
              ++ String.intercalate ", " (detectCodeLanguages codeBlocks) ++ "\n\n"
          else b1
        let b3 :=
          if mentions.length > 0 then
            b2 ++ "Mentions:\n"
              ++ String.join (mentions.map (fun mention => "- " ++ mention ++ "\n"))
              ++ "\n"
          else b2
        b3
      else a4 ++ "No description provided for this issue.\n\n"
    a5 ++ provideSuggestions issue

/-! ## ReportAssembler: HTML rendering

The document template of `generateHtmlReport` (src/os-bot.ts:243-284), split
at its interpolation points.  No interpolated value is escaped. -/

def htmlChunk1 : String :=
  "\n      <!DOCTYPE html>\n      <html lang=\"en\">\n      <head>\n        <meta charset=\"UTF-8\">\n        <meta name=\"viewport\" content=\"width=device-width, initial-scale=1.0\">\n        <title>Issue Analysis Report</title>\n        <script src=\"https://cdn.tailwindcss.com\"></script>\n      </head>\n      <body class=\"bg-gray-100 p-8\">\n        <div class=\"max-w-4xl mx-auto bg-white shadow-lg rounded-lg overflow-hidden\">\n          <div class=\"px-6 py-4\">\n            <h1 class=\"text-3xl font-bold mb-4\">Issue #"

def htmlChunk2 : String :=
  " Analysis</h1>\n            <h2 class=\"text-xl font-semibold mb-2\">"

def htmlChunk3 : String :=
  "</h2>\n            <p class=\"text-gray-600 mb-4\">Created by "

def htmlChunk4 : String := " on "

def htmlChunk5 : String :=
  "</p>\n\n            <div class=\"mb-6\">\n              <h3 class=\"text-lg font-semibold mb-2\">Analysis:</h3>\n              <pre class=\"bg-gray-100 p-4 rounded\">"

def htmlChunk6 : String :=
  "</pre>\n            </div>\n\n            <div class=\"mb-6\">\n              <h3 class=\"text-lg font-semibold mb-2\">AI Insights:</h3>\n              <div class=\"bg-blue-50 p-4 rounded\">"

def htmlChunk7 : String :=
  "</div>\n            </div>\n\n            <div class=\"mb-6\">\n              <h3 class=\"text-lg font-semibold mb-2\">Suggested Labels:</h3>\n              <div class=\"flex flex-wrap gap-2\">\n                "

def htmlChunk8 : String :=
  "\n              </div>\n            </div>\n\n            <div class=\"mb-6\">\n              <h3 class=\"text-lg font-semibold mb-2\">Priority:</h3>\n              <p class=\"font-medium\">"

def htmlChunk9 : String :=
  "</p>\n            </div>\n          </div>\n        </div>\n      </body>\n      </html>\n      "

/-- The per-label tag of the Suggested Labels section
(`suggestedLabels.map(...).join("")`). -/
def labelSpan (label : String) : String :=
  "<span class=\"bg-green-200 text-green-800 px-2 py-1 rounded\">" ++ label ++ "</span>"

/-- The `htmlContent` template literal of `OsBot.generateHtmlReport`
(src/os-bot.ts:243-284), as a function of the interpolated values. -/
def renderHtml (loc : String → String) (issue : Issue) (analysis aiInsights : String)
    (suggestedLabels : List String) (priority : String) : String :=
  htmlChunk1 ++ Nat.repr issue.number ++ htmlChunk2 ++ issue.title ++ htmlChunk3
    ++ issue.user ++ htmlChunk4 ++ loc issue.created_at ++ htmlChunk5
    ++ analysis ++ htmlChunk6 ++ aiInsights ++ htmlChunk7
    ++ String.join (suggestedLabels.map labelSpan) ++ htmlChunk8
    ++ priority ++ htmlChunk9

/-! ## Orchestrator and error model

Thrown exceptions are `Except.error` values.  `Env` fixes the outcome of each
remote interaction of one run: the tracker response (`Except.error cause`
models a transport failure or non-2xx status, which `axios` raises as an
exception carrying `cause`), the three generative-service responses, and the
ambient locale/timezone rendering of timestamps. -/

/-- An error surfaced by the pipeline: a tracker fetch failure or a
generative-service failure, each carrying the thrown error's message. -/
inductive BotError where
  | fetchError (msg : String)
  | aiError (msg : String)
deriving DecidableEq, Repr

/-- The outcome of every remote interaction available to one run. -/
structure Env where
  httpIssue : Except String Issue
  aiInsight : Except String String
  aiLabels : Except String String
  aiPriority : Except String String
  loc : String → String

/-- `OsBot.fetchIssue` (src/os-bot.ts:38-51): on any transport failure or
non-success status it catches the axios error and throws a fresh
`Error("Failed to fetch issue data")`; the underlying cause is only logged. -/
def fetchIssue (env : Env) : Except BotError Issue :=
  match env.httpIssue with
  | .ok issue => .ok issue
  | .error _cause => .error (.fetchError "Failed to fetch issue data")

/-- `OsBot.getAIInsights` (src/os-bot.ts:53-73): no catch, a service error
propagates; a successful response is wrapped in the fixed frame. -/
def getAIInsights (env : Env) : Except BotError String :=
  match env.aiInsight with
  | .ok text => .ok ("\nAI Insights:\n" ++ text ++ "\n")
  | .error cause => .error (.aiError cause)

/-- `OsBot.analyzeIssue` (src/os-bot.ts:26-36): the only entry point with a
`try`/`catch` — any error is replaced by the fixed degraded string. -/
def analyzeIssue (env : Env) : String :=
  match (do
      let issue ← fetchIssue env
      let analysis := generateAnalysis env.loc (some issue)
      let aiInsights ← getAIInsights env
      pure (analysis ++ aiInsights) : Except BotError String) with
  | .ok result => result
  | .error _e => "Unable to analyze the issue at this time."

/-- `OsBot.suggestLabels` (src/os-bot.ts:74-91): no catch; the AI response is
split on newlines and blank lines are dropped. -/
def suggestLabels (env : Env) : Except BotError (List String) := do
  let _issue ← fetchIssue env
  match env.aiLabels with
  | .ok text => pure ((splitLines text).filter (fun label => !(strTrim label == "")))
  | .error cause => Except.error (.aiError cause)

/-- `OsBot.prioritizeIssue` (src/os-bot.ts:142-157): no catch; the AI
response is returned verbatim. -/
def prioritizeIssue (env : Env) : Except BotError String := do
  let _issue ← fetchIssue env
  match env.aiPriority with
  | .ok text => pure text
  | .error cause => Except.error (.aiError cause)

/-- `OsBot.generateHtmlReport` (src/os-bot.ts:236-289): no catch; returns the
written filename paired with the rendered document (the file-system write is
an external sink). -/
def generateHtmlReport (env : Env) (issueNumber : Nat) :
    Except BotError (String × String) := do
  let issue ← fetchIssue env
  let analysis := generateAnalysis env.loc (some issue)
  let aiInsights ← getAIInsights env
  let suggestedLabels ← suggestLabels env
  let priority ← prioritizeIssue env
  let htmlContent := renderHtml env.loc issue analysis aiInsights suggestedLabels priority
  pure ("issue-" ++ Nat.repr issueNumber ++ "-report.html", htmlContent)

/-! ## Derived characterizations and concrete inputs used by the theorems -/

/-- The advisory lines `provideSuggestions` appends below its header, one
list element per fired rule, in rule order.  This mirrors the guard
structure of `provideSuggestions` and is tied to it by the equation proved
in the suggestion theorem. -/
def firedLines (issue : Issue) : List String :=
  (if !(bodyTruthy issue.body) then [noDescLine]
   else if (issue.body.getD "").length < 50 then [shortDescLine]
   else [])
  ++ (if !(bodyTruthy issue.body)
        || ((extractCodeBlock (splitLines (issue.body.getD ""))).length == 0) then
        [noCodeLine]
      else [])
  ++ (if issue.labels.length == 0 then [noLabelsLine] else [])

/-- A run whose tracker fetch fails with a 404 while every generative call
would succeed. -/
def env404 : Env :=
  { httpIssue := Except.error "Request failed with status code 404"
    aiInsight := Except.ok "some insight"
    aiLabels := Except.ok "bug\nfeature"
    aiPriority := Except.ok "High"
    loc := fun _ => "1/1/2024, 12:00:00 AM" }

/-- A run whose tracker fetch fails with a 500, distinct cause from
`env404`. -/
def env500 : Env :=
  { env404 with httpIssue := Except.error "Request failed with status code 500" }

/-- A concrete issue with a missing body, used to exhibit the ambient-locale
dependence of the text rendering. -/
def localeProbeIssue : Issue :=
  { title := "Bug: crash on startup", number := 2, body := none,
    labels := [{ name := "bug" }], user := "maintainer",
    created_at := "2024-01-01T00:00:00Z" }

/-- A concrete issue whose body is present but equal to the empty string. -/
def emptyBodyIssue : Issue :=
  { title := "Crash on startup", number := 2, body := some "",
    labels := [{ name := "bug" }], user := "alice",
    created_at := "2024-01-01T00:00:00Z" }

/-- The §8 suggestion scenario: empty body, no labels, no code blocks. -/
def emptyIssue : Issue :=
  { title := "t", number := 1, body := some "", labels := [], user := "u",
    created_at := "2024-01-01T00:00:00Z" }

/-- An issue whose body is present but shorter than 50 characters. -/
def shortBodyIssue : Issue :=
  { title := "t", number := 1, body := some "hey", labels := [{ name := "bug" }],
    user := "u", created_at := "2024-01-01T00:00:00Z" }

/-! ## Helper lemmas about the primitives -/

theorem strData_append (a b : String) : (a ++ b).data = a.data ++ b.data := rfl

theorem strExt (a b : String) (h : a.data = b.data) : a = b :=
  congrArg String.mk h

theorem str_append_assoc (a b c : String) : a ++ b ++ c = a ++ (b ++ c) :=
  strExt _ _ (by simp [strData_append, List.append_assoc])

theorem str_append_empty (a : String) : a ++ "" = a :=
  strExt _ _ (by simp [strData_append])

theorem str_empty_append (a : String) : "" ++ a = a :=
  strExt _ _ (by simp [strData_append])

theorem strJoin_cons (a : String) (t : List String) :
    String.join (a :: t) = a ++ String.join t := by
  have key : ∀ (t : List String) (x : String),
      List.foldl (· ++ ·) x t = x ++ List.foldl (· ++ ·) "" t := by
    intro t
    induction t with
    | nil => intro x; exact (str_append_empty x).symm
    | cons b t ih =>
      intro x
      simp only [List.foldl_cons]
      rw [ih (x ++ b), ih ("" ++ b), str_empty_append, str_append_assoc]
  simp only [String.join, List.foldl_cons]
  rw [key t ("" ++ a), str_empty_append]

theorem startsWithChars_append (p r : List Char) : startsWithChars (p ++ r) p = true := by
  induction p with
  | nil => cases r <;> rfl
  | cons c cs ih => simp [startsWithChars, ih]

theorem startsWithChars_extend {s p : List Char} (b : List Char)
    (h : startsWithChars s p = true) : startsWithChars (s ++ b) p = true := by
  induction p generalizing s with
  | nil => cases s <;> cases b <;> rfl
  | cons q qs ih =>
    cases s with
    | nil => simp [startsWithChars] at h
    | cons c cs =>
      simp only [startsWithChars, Bool.and_eq_true] at h
      simp [startsWithChars, h.1, ih h.2]

theorem containsSub_of_startsWith {s p : List Char} (h : startsWithChars s p = true) :
    containsSub s p = true := by
  cases s with
  | nil =>
    cases p with
    | nil => rfl
    | cons q qs => simp [startsWithChars] at h
  | cons c cs => simp [containsSub, h]

theorem csub_append_right (a : List Char) {b p : List Char} (h : containsSub b p = true) :
    containsSub (a ++ b) p = true := by
  induction a with
  | nil => simpa using h
  | cons c cs ih => simp [containsSub, ih]

theorem csub_append_left {a p : List Char} (b : List Char) (h : containsSub a p = true) :
    containsSub (a ++ b) p = true := by
  induction a with
  | nil =>
    cases p with
    | nil => cases b <;> simp [containsSub, startsWithChars]
    | cons q qs => simp [containsSub, List.isEmpty] at h
  | cons c cs ih =>
    simp only [containsSub, Bool.or_eq_true] at h
    rcases h with h | h
    · simp only [containsSub, Bool.or_eq_true]
      exact Or.inl (startsWithChars_extend b h)
    · simp only [containsSub, Bool.or_eq_true]
      exact Or.inr (ih h)

theorem csub_here (p r : List Char) : containsSub (p ++ r) p = true :=
  containsSub_of_startsWith (startsWithChars_append p r)

/-! ## C2: code-block extraction count -/

theorem extractCodeBlockGo_length (lines : List String) :
    ∀ (inCodeBlock : Bool) (currentBlock : String) (codeBlocks : List String),
      (extractCodeBlockGo lines inCodeBlock currentBlock codeBlocks).length
        = codeBlocks.length
          + ((lines.countP isFence) + (if inCodeBlock then 1 else 0)) / 2 := by
  induction lines with
  | nil =>
    intro b cur acc
    cases b <;> simp [extractCodeBlockGo]
  | cons line rest ih =>
    intro b cur acc
    by_cases hf : isFence line = true
    all_goals cases b
    all_goals simp [extractCodeBlockGo, hf, List.countP_cons, ih]
    all_goals omega

/-- C2: for every list of body lines, `extractCodeBlock` emits exactly
`floor(n / 2)` code blocks, where `n` is the number of lines starting with
the triple-backtick fence marker; the concrete run shows blocks are emitted
in body order and that the content accumulated after an unclosed trailing
fence is silently dropped (three fence lines, one block, the trailing
`code2` discarded). -/
theorem c2_code_block_count :
    (∀ (bodyLines : List String),
        (extractCodeBlock bodyLines).length = (bodyLines.countP isFence) / 2)
    ∧ extractCodeBlock ["```", "code1", "```", "middle", "```ts", "code2"] = ["code1"] := by
  constructor
  · intro bodyLines
    simpa using extractCodeBlockGo_length bodyLines false "" []
  · decide

/-! ## C3: body summarization bound -/

/-- C3: `summarizeBody` always returns at most 203 characters (it joins at
most the first five lines and truncates to 200 characters), every nonempty
line list gets the 3-character ellipsis marker appended whether or not
truncation occurred, and the empty line list yields the fixed
"no description" sentinel. -/
theorem c3_summarize_bounded :
    (∀ (bodyLines : List String), (summarizeBody bodyLines).length ≤ 203)
    ∧ (∀ (line : String) (rest : List String),
        "...".data <:+ (summarizeBody (line :: rest)).data)
    ∧ summarizeBody [] = "No description available." := by
  refine ⟨?_, ?_, rfl⟩
  · intro bodyLines
    simp only [summarizeBody]
    split
    · decide
    · rw [String.length_append]
      have h1 : (strTake (String.intercalate "\n" (bodyLines.take 5)) 200).length ≤ 200 := by
        show (List.take 200 _).length ≤ 200
        simp [List.length_take]
      have h2 : ("..." : String).length = 3 := by decide
      omega
  · intro line rest
    simp only [summarizeBody, List.isEmpty_cons, if_false, Bool.false_eq_true]
    rw [strData_append]
    exact List.suffix_append _ _

/-! ## C6: mention extraction -/

theorem mGo_sound (l : List Char) :
    ∀ (st : MSt),
      (∀ buf, st = MSt.coll buf → buf ≠ [] ∧ buf.all isWordChar = true) →
      ∀ m ∈ mGo l st, m ≠ [] ∧ m.all isWordChar = true := by
  induction l with
  | nil =>
    intro st hst m hm
    cases st with
    | idle => simp [mGo] at hm
    | armed => simp [mGo] at hm
    | coll buf =>
      simp only [mGo, List.mem_singleton] at hm
      subst hm
      obtain ⟨h1, h2⟩ := hst buf rfl
      refine ⟨by simpa using h1, ?_⟩
      rw [List.all_eq_true] at h2 ⊢
      intro x hx
      exact h2 x (List.mem_reverse.mp hx)
  | cons c rest ih =>
    intro st hst m hm
    have harm : ∀ buf, (if c == '@' then MSt.armed else MSt.idle) = MSt.coll buf →
        buf ≠ [] ∧ buf.all isWordChar = true := by
      intro buf h
      split at h <;> exact absurd h (by simp)
    cases st with
    | idle =>
      exact ih _ harm m (by simpa [mGo] using hm)
    | armed =>
      simp only [mGo] at hm
      split at hm
      case isTrue hw =>
        refine ih _ ?_ m hm
        intro buf h
        cases h
        refine ⟨by simp, by simpa using hw⟩
      case isFalse hw =>
        exact ih _ harm m hm
    | coll buf =>
      obtain ⟨h1, h2⟩ := hst buf rfl
      rw [List.all_eq_true] at h2
      simp only [mGo] at hm
      split at hm
      case isTrue hw =>
        refine ih _ ?_ m hm
        intro buf' h
        cases h
        refine ⟨by simp, ?_⟩
        rw [List.all_eq_true]
        intro x hx
        rcases List.mem_cons.mp hx with hx | hx
        · subst hx; exact hw
        · exact h2 x hx
      case isFalse hw =>
        rcases List.mem_cons.mp hm with hm | hm
        · subst hm
          refine ⟨by simpa using h1, ?_⟩
          rw [List.all_eq_true]
          exact fun x hx => h2 x (List.mem_reverse.mp hx)
        · exact ih _ harm m hm

/-- C6: every mention emitted by `extractMentions` is a nonempty run of word
characters (the regex `/@(\w+)/g` never yields an empty or non-word
capture), and the two sample bodies show order of occurrence is preserved
and duplicates are kept. -/
theorem c6_extract_mentions :
    (∀ (body : String),
        (extractMentions body).all
          (fun mention => !(mention.data.isEmpty) && mention.data.all isWordChar) = true)
    ∧ extractMentions "hi @alice and @bob_2" = ["alice", "bob_2"]
    ∧ extractMentions "@x @x" = ["x", "x"] := by
  refine ⟨?_, by decide, by decide⟩
  intro body
  rw [List.all_eq_true]
  intro mention hmem
  simp only [extractMentions, List.mem_map] at hmem
  obtain ⟨m, hm, rfl⟩ := hmem
  have hs := mGo_sound body.data MSt.idle (by intro buf h; exact absurd h (by simp)) m hm
  simp only [Bool.and_eq_true]
  constructor
  · cases m with
    | nil => exact absurd rfl hs.1
    | cons x xs => rfl
  · exact hs.2

/-! ## C5: language detection -/

theorem detectGo_nodup (blocks : List String) :
    ∀ (languages : List String), languages.Nodup → (detectGo blocks languages).Nodup := by
  induction blocks with
  | nil => intro languages h; exact h
  | cons block rest ih =>
    intro languages h
    simp only [detectGo]
    cases hf : findLang languageHints block with
    | none => exact ih languages h
    | some lang =>
      by_cases hmem : lang ∈ languages
      · simp only [hmem, if_true]
        exact ih languages h
      · simp only [hmem, if_false]
        refine ih _ ?_
        simp [List.nodup_append, h, hmem]

theorem detectGo_mem (blocks : List String) :
    ∀ (languages : List String) (lang : String),
      lang ∈ detectGo blocks languages ↔
        lang ∈ languages ∨ ∃ block ∈ blocks, findLang languageHints block = some lang := by
  induction blocks with
  | nil => intro languages lang; simp [detectGo]
  | cons block rest ih =>
    intro languages lang
    simp only [detectGo]
    cases hf : findLang languageHints block with
    | none =>
      rw [ih]
      constructor
      · rintro (h | h)
        · exact Or.inl h
        · exact Or.inr (by
            obtain ⟨b, hb, hfb⟩ := h
            exact ⟨b, List.mem_cons_of_mem _ hb, hfb⟩)
      · rintro (h | ⟨b, hb, hfb⟩)
        · exact Or.inl h
        · rcases List.mem_cons.mp hb with rfl | hb
          · rw [hf] at hfb; cases hfb
          · exact Or.inr ⟨b, hb, hfb⟩
    | some lang0 =>
      rw [ih]
      have hacc : ∀ x, x ∈ (if lang0 ∈ languages then languages else languages ++ [lang0])
          ↔ x ∈ languages ∨ x = lang0 := by
        intro x
        by_cases hmem : lang0 ∈ languages
        · simp only [hmem, if_true]
          constructor
          · exact Or.inl
          · rintro (h | rfl)
            · exact h
            · exact hmem
        · simp [hmem]
      rw [hacc]
      constructor
      · rintro ((h | rfl) | ⟨b, hb, hfb⟩)
        · exact Or.inl h
        · exact Or.inr ⟨block, List.mem_cons_self _ _, hf⟩
        · exact Or.inr ⟨b, List.mem_cons_of_mem _ hb, hfb⟩
      · rintro (h | ⟨b, hb, hfb⟩)
        · exact Or.inl (Or.inl h)
        · rcases List.mem_cons.mp hb with rfl | hb
          · rw [hf] at hfb
            exact Or.inl (Or.inr (Option.some_injective _ hfb).symm)
          · exact Or.inr ⟨b, hb, hfb⟩

/-- C5: the combined language list contains no duplicate tags, and a tag is
reported iff some block's first-match scan over the fixed table
(javascript, python, java, typescript — `findLang` stops at the first
language with a matching hint, so each block contributes at most one tag)
yields it; the concrete runs show the first-match-in-table-order rule
(a block containing both the python hint `def` and the javascript hint
`const` is tagged javascript, the earlier table entry) and deduplication. -/
theorem c5_detect_languages :
    (∀ (codeBlocks : List String),
        (detectCodeLanguages codeBlocks).Nodup
        ∧ ∀ lang, lang ∈ detectCodeLanguages codeBlocks ↔
            ∃ block ∈ codeBlocks, findLang languageHints block = some lang)
    ∧ detectCodeLanguages ["def x = const"] = ["javascript"]
    ∧ detectCodeLanguages ["type T", "const x", "interface I"]
        = ["typescript", "javascript"] := by
  refine ⟨?_, by decide, by decide⟩
  intro codeBlocks
  constructor
  · exact detectGo_nodup codeBlocks [] List.nodup_nil
  · intro lang
    rw [detectCodeLanguages, detectGo_mem]
    simp

/-! ## C4: the suggestion engine -/

theorem advisory_distinct :
    noDescLine ≠ shortDescLine ∧ noDescLine ≠ noCodeLine ∧ noDescLine ≠ noLabelsLine
    ∧ shortDescLine ≠ noCodeLine ∧ shortDescLine ≠ noLabelsLine
    ∧ noCodeLine ≠ noLabelsLine := by
  refine ⟨?_, ?_, ?_, ?_, ?_, ?_⟩ <;> decide

theorem provideSuggestions_eq (issue : Issue) :
    provideSuggestions issue = "Suggestions:\n" ++ String.join (firedLines issue) := by
  unfold provideSuggestions firedLines
  split_ifs <;> (apply strExt; simp [String.join, strData_append, List.append_assoc])

/-- C4: the suggestion output is the fixed header followed by exactly the
fired advisory lines in rule order; the "no description" and "too short"
advisories never fire together, the "too short" advisory fires only when a
body is present and shorter than 50 characters, every fired line is one of
the four advisories, and the empty-body/no-labels issue receives the header
plus three advisory lines. -/
theorem c4_suggestions :
    (∀ (issue : Issue),
        provideSuggestions issue = "Suggestions:\n" ++ String.join (firedLines issue)
        ∧ ¬(noDescLine ∈ firedLines issue ∧ shortDescLine ∈ firedLines issue)
        ∧ (shortDescLine ∈ firedLines issue →
            bodyTruthy issue.body = true ∧ (issue.body.getD "").length < 50)
        ∧ ∀ line ∈ firedLines issue,
            line ∈ [noDescLine, shortDescLine, noCodeLine, noLabelsLine])
    ∧ firedLines emptyIssue = [noDescLine, noCodeLine, noLabelsLine]
    ∧ provideSuggestions emptyIssue
        = "Suggestions:\n" ++ (noDescLine ++ (noCodeLine ++ noLabelsLine)) := by
  obtain ⟨d1, d2, d3, d4, d5, d6⟩ := advisory_distinct
  refine ⟨?_, by decide, by decide⟩
  intro issue
  refine ⟨provideSuggestions_eq issue, ?_, ?_, ?_⟩
  · unfold firedLines
    split_ifs <;> simp_all <;> exact Ne.symm d1
  · intro h
    unfold firedLines at h
    split_ifs at h with h1 h2 h3 <;> simp_all
  · intro line h
    unfold firedLines at h
    split_ifs at h <;> simp_all <;> tauto

/-- Witness for the hypotheses of the C4 theorem: at the concrete
short-body issue the "too short" advisory fires, and the theorem yields a
present body shorter than 50 characters. -/
theorem c4_suggestions_witness :
    bodyTruthy shortBodyIssue.body = true ∧ (shortBodyIssue.body.getD "").length < 50 :=
  (c4_suggestions.1 shortBodyIssue).2.2.1 (by decide)

/-! ## C10: empty-string body behaves as a missing body -/

/-- C10: `generateAnalysis` treats an issue whose body is the empty string
exactly like one whose body is missing (all body accesses are guarded by JS
truthiness, which both fail), and the concrete empty-body issue's report
contains the fixed "No description provided for this issue." line and the
no-description advisory while containing neither the summary section header
nor the `summarizeBody` sentinel "No description available.". -/
theorem c10_empty_body_like_missing :
    (∀ (loc : String → String) (title : String) (number : Nat) (labels : List Label)
        (user created_at : String),
        generateAnalysis loc (some
            { title := title, number := number, body := some "",
              labels := labels, user := user, created_at := created_at })
          = generateAnalysis loc (some
            { title := title, number := number, body := none,
              labels := labels, user := user, created_at := created_at }))
    ∧ containsSub (generateAnalysis (fun _ => "DATE") (some emptyBodyIssue)).data
        "No description provided for this issue.".data = true
    ∧ containsSub (generateAnalysis (fun _ => "DATE") (some emptyBodyIssue)).data
        "No description available.".data = false
    ∧ containsSub (generateAnalysis (fun _ => "DATE") (some emptyBodyIssue)).data
        "Issue Description:".data = false
    ∧ containsSub (generateAnalysis (fun _ => "DATE") (some emptyBodyIssue)).data
        noDescLine.data = true := by
  refine ⟨?_, by decide, by decide, by decide, by decide⟩
  intro loc title number labels user created_at
  rfl

/-! ## C9: purity of the renderings -/

/-- C9 counterexample: the text rendering depends on the ambient
locale/timezone through `new Date(created_at).toLocaleString()` — the same
issue rendered under two locale environments yields different bytes, so the
renderings are not functions of the issue alone. -/
theorem c9_counterexample :
    generateAnalysis (fun _ => "1/1/2024, 12:00:00 AM") (some localeProbeIssue)
      ≠ generateAnalysis (fun _ => "01.01.2024, 00:00:00") (some localeProbeIssue) := by
  decide

/-- C9 (amended): the text and HTML renderings are deterministic functions
of the issue, the AI outputs and the ambient locale rendering of
timestamps — under any fixed locale environment, repeated runs on the same
inputs yield byte-identical output. -/
theorem c9_pure_given_locale :
    ∀ (loc1 loc2 : String → String), (∀ s, loc1 s = loc2 s) →
      (∀ (issue : Option Issue),
          generateAnalysis loc1 issue = generateAnalysis loc2 issue)
      ∧ (∀ (issue : Issue) (analysis aiInsights : String) (labels : List String)
          (priority : String),
          renderHtml loc1 issue analysis aiInsights labels priority
            = renderHtml loc2 issue analysis aiInsights labels priority) := by
  intro loc1 loc2 h
  have he : loc1 = loc2 := funext h
  subst he
  exact ⟨fun _ => rfl, fun _ _ _ _ _ => rfl⟩

/-- Witness for the hypotheses of the C9 theorem at a concrete locale
rendering and issue. -/
theorem c9_pure_given_locale_witness :
    generateAnalysis (fun s => s) (some localeProbeIssue)
      = generateAnalysis (fun s => s) (some localeProbeIssue) :=
  (c9_pure_given_locale (fun s => s) (fun s => s) (fun _ => rfl)).1 (some localeProbeIssue)

/-! ## C1: error handling of the entry points -/

/-- C1 counterexample: on a failed tracker fetch (404), `suggestLabels`
propagates the raw `FetchError` to its caller instead of returning a
degraded placeholder string, while `analyzeIssue` — the only entry point
with a catch — does degrade. -/
theorem c1_counterexample :
    suggestLabels env404 = Except.error (BotError.fetchError "Failed to fetch issue data")
    ∧ analyzeIssue env404 = "Unable to analyze the issue at this time." :=
  ⟨rfl, rfl⟩

/-- C1 (amended): only `analyzeIssue` catches errors and returns the fixed
degraded string (on fetch failure and on AI failure alike); `suggestLabels`,
`prioritizeIssue` and `generateHtmlReport` propagate the `FetchError` of a
failed fetch undecorated to their callers. -/
theorem c1_error_propagation :
    (∀ (env : Env) (cause : String), env.httpIssue = Except.error cause →
        analyzeIssue env = "Unable to analyze the issue at this time."
        ∧ suggestLabels env
            = Except.error (BotError.fetchError "Failed to fetch issue data")
        ∧ prioritizeIssue env
            = Except.error (BotError.fetchError "Failed to fetch issue data")
        ∧ ∀ (issueNumber : Nat), generateHtmlReport env issueNumber
            = Except.error (BotError.fetchError "Failed to fetch issue data"))
    ∧ (∀ (env : Env) (issue : Issue) (cause : String),
        env.httpIssue = Except.ok issue → env.aiInsight = Except.error cause →
        analyzeIssue env = "Unable to analyze the issue at this time.") := by
  constructor
  · intro env cause h
    have hf : fetchIssue env = Except.error (BotError.fetchError "Failed to fetch issue data") := by
      simp [fetchIssue, h]
    refine ⟨?_, ?_, ?_, ?_⟩
    · simp [analyzeIssue, hf, Bind.bind, Except.bind]
    · simp [suggestLabels, hf, Bind.bind, Except.bind]
    · simp [prioritizeIssue, hf, Bind.bind, Except.bind]
    · intro issueNumber
      simp [generateHtmlReport, hf, Bind.bind, Except.bind]
  · intro env issue cause h hai
    have hf : fetchIssue env = Except.ok issue := by simp [fetchIssue, h]
    have hg : getAIInsights env = Except.error (BotError.aiError cause) := by
      simp [getAIInsights, hai]
    simp [analyzeIssue, hf, hg, Bind.bind, Except.bind]

/-- Witness for the hypotheses of the C1 theorem at the concrete 404 run. -/
theorem c1_error_propagation_witness :
    prioritizeIssue env404
      = Except.error (BotError.fetchError "Failed to fetch issue data") :=
  (c1_error_propagation.1 env404 "Request failed with status code 404" rfl).2.2.1

/-! ## C7: the fetch error does not carry its cause -/

/-- C7 counterexample: two distinct underlying causes (a 404 and a 500)
produce the very same `FetchError`, whose fixed message does not contain the
cause — so the error raised by `fetchIssue` does not carry the underlying
cause of the failure. -/
theorem c7_counterexample :
    fetchIssue env404 = fetchIssue env500
    ∧ fetchIssue env404 = Except.error (BotError.fetchError "Failed to fetch issue data")
    ∧ containsSub "Failed to fetch issue data".data "404".data = false :=
  ⟨rfl, rfl, by decide⟩

/-- C7 (amended): on every transport failure or non-success status,
`fetchIssue` fails with a `FetchError` carrying the fixed message
"Failed to fetch issue data" (the underlying cause is only logged, not
attached), and this error is what its immediate caller observes. -/
theorem c7_fixed_fetch_error :
    ∀ (env : Env) (cause : String), env.httpIssue = Except.error cause →
      fetchIssue env = Except.error (BotError.fetchError "Failed to fetch issue data") := by
  intro env cause h
  simp [fetchIssue, h]

/-- Witness for the hypotheses of the C7 theorem at the concrete 500 run. -/
theorem c7_fixed_fetch_error_witness :
    fetchIssue env500 = Except.error (BotError.fetchError "Failed to fetch issue data") :=
  c7_fixed_fetch_error env500 "Request failed with status code 500" rfl

/-! ## C8: verbatim HTML interpolation -/

theorem csub_join_labels (rest : List Char) (labels : List String) (l : String) :
    l ∈ labels →
      containsSub ((String.join (labels.map labelSpan)).data ++ rest) l.data = true := by
  induction labels with
  | nil => intro h; cases h
  | cons a t ih =>
    intro h
    rw [List.map_cons, strJoin_cons, strData_append, List.append_assoc]
    rcases List.mem_cons.mp h with rfl | h
    · simp only [labelSpan, strData_append, List.append_assoc]
      exact csub_append_right _ (csub_here _ _)
    · exact csub_append_right _ (ih h)

/-- C8: the HTML rendering interpolates the issue fields (title, author,
number), the analysis text, the AI insight, each suggested label and the
priority text into the document template verbatim — each value occurs as a
contiguous substring of the output, with no character escaping applied, so
content containing HTML markup appears as-is. -/
theorem c8_html_verbatim :
    ∀ (loc : String → String) (issue : Issue) (analysis aiInsights : String)
      (suggestedLabels : List String) (priority : String),
      containsSub (renderHtml loc issue analysis aiInsights suggestedLabels priority).data
        issue.title.data = true
      ∧ containsSub (renderHtml loc issue analysis aiInsights suggestedLabels priority).data
          issue.user.data = true
      ∧ containsSub (renderHtml loc issue analysis aiInsights suggestedLabels priority).data
          (Nat.repr issue.number).data = true
      ∧ containsSub (renderHtml loc issue analysis aiInsights suggestedLabels priority).data
          analysis.data = true
      ∧ containsSub (renderHtml loc issue analysis aiInsights suggestedLabels priority).data
          aiInsights.data = true
      ∧ containsSub (renderHtml loc issue analysis aiInsights suggestedLabels priority).data
          priority.data = true
      ∧ suggestedLabels.all
          (fun label =>
            containsSub
              (renderHtml loc issue analysis aiInsights suggestedLabels priority).data
              label.data) = true := by
  intro loc issue analysis aiInsights suggestedLabels priority
  simp only [renderHtml, strData_append, List.append_assoc]
  refine ⟨?_, ?_, ?_, ?_, ?_, ?_, ?_⟩
  · iterate 3 apply csub_append_right
    exact csub_here _ _
  · iterate 5 apply csub_append_right
    exact csub_here _ _
  · iterate 1 apply csub_append_right
    exact csub_here _ _
  · iterate 9 apply csub_append_right
    exact csub_here _ _
  · iterate 11 apply csub_append_right
    exact csub_here _ _
  · iterate 15 apply csub_append_right
    exact csub_here _ _
  · rw [List.all_eq_true]
    intro label hmem
    iterate 13 apply csub_append_right
    exact csub_join_labels _ suggestedLabels label hmem

end OsBot
